import Mathlib

/-!
Verification of the shared request/response pipeline of the keptn go-utils
client library: response classification, error mapping, pagination, retry,
auth-header injection and local parameter validation, shallowly embedded
from the Go sources in `pkg/api/utils` and the v2 event/project handlers.

Conventions of the embedding:
* Machine integers (HTTP status codes, page counters) are `Nat`/`Int`.
* Go functions returning `(T, error)` become `Except String T`; a Go nil
  pointer dereference (a runtime panic) is made explicit by the `crash`
  constructor of `GoResult`.
* Response bodies are represented by the `Body` type, which records the
  only three JSON shapes the error mapper can distinguish: malformed JSON,
  a valid JSON document without a `message` field, and the structured
  error envelope carrying a `message` field.
* Network transports and model-type JSON decoders live outside the core
  (the `models` package is not part of the embedded sources); they appear
  as function parameters of the embedded operations.
-/

namespace Keptn

/-- Result of running a piece of Go code that may hit a runtime panic
(such as a nil pointer dereference). `ok` is a normal return. -/
inductive GoResult (α : Type) where
  | ok (a : α)
  | crash (msg : String)
deriving Repr, DecidableEq

/-- Abstraction of a response body, classified by how the structured
error envelope decoder sees it: not JSON at all, valid JSON without a
`message` field, or the envelope with a `message` field. -/
inductive Body where
  | notJson (raw : String)
  | jsonNoMessage (raw : String)
  | jsonMessage (msg : String)
deriving Repr, DecidableEq

/-- Raw bytes of the body, as a string, mirroring `string(body)` in Go. -/
def Body.raw : Body → String
  | .notJson r => r
  | .jsonNoMessage r => r
  | .jsonMessage m => "\x7b\"message\":\"" ++ m ++ "\"\x7d"

/-- Modelled from the spec: `models.Error.FromJSON` (the `models` package
is not under the embedded sources). Per the spec, the error envelope is
the JSON shape `\x7b"message": string\x7d`; unmarshalling malformed JSON fails,
valid JSON without the field leaves the `Message` pointer nil (`none`),
and the envelope yields the message. The result is the `Message` field. -/
def errFromJSON : Body → Except String (Option String)
  | .notJson _ => .error "invalid character looking for beginning of value"
  | .jsonNoMessage _ => .ok none
  | .jsonMessage m => .ok (some m)

/-- Modelled from the spec: the `ErrWithStatusCode` format constant (not
under the embedded sources); a templated "unexpected status code" message
carrying the numeric code. -/
def errWithStatusCode (statusCode : Nat) : String :=
  "unexpected status code " ++ toString statusCode

/-- Embeds `handleErrStatusCode` from `pkg/api/utils/apiServiceUtils.go`:
unmarshal the body into `models.Error`; if unmarshalling succeeded
(`err == nil && respErr != nil`, and the pointer `respErr` is never nil)
dereference `*respErr.Message`, which panics when the field is absent;
otherwise fall back to the generic status-code error. -/
def handleErrStatusCode (statusCode : Nat) (body : Body) : GoResult String :=
  match errFromJSON body with
  | .ok respErrMessage =>
    match respErrMessage with
    | some msg => .ok msg
    | none => .crash "runtime error: invalid memory address or nil pointer dereference"
  | .error _ => .ok (errWithStatusCode statusCode)

/-- Tracking-context payload echoed by write endpoints
(`models.EventContext`, field `KeptnContext *string`). -/
structure EventContext where
  keptnCtx : Option String
deriving Repr, DecidableEq

/-- Stand-in for `models.Project`; its JSON decoding is a collaborator
passed in as a parameter, so only identity matters here. -/
structure Project where
  name : String
deriving Repr, DecidableEq

/-- Embeds the response-classification part of `post` (string version)
from `apiServiceUtils.go`: write band `[200,204]`; in band, return the
body text (empty string for an empty body); out of band, map the body
through the error mapper when non-empty, else synthesize the generic
"Received unexpected response" message from code and status text. -/
def postOp (statusCode : Nat) (statusText : String) (body : Body) :
    GoResult (Except String String) :=
  if 200 ≤ statusCode ∧ statusCode ≤ 204 then
    if 0 < (Body.raw body).length then .ok (.ok (Body.raw body))
    else .ok (.ok "")
  else if 0 < (Body.raw body).length then
    match handleErrStatusCode statusCode body with
    | .ok msg => .ok (.error msg)
    | .crash m => .crash m
  else
    .ok (.error ("Received unexpected response: " ++ toString statusCode ++ " " ++ statusText))

/-- Embeds `put` (string version) from `apiServiceUtils.go`; identical
classification to `postOp`, with the PUT method. -/
def putOp (statusCode : Nat) (statusText : String) (body : Body) :
    GoResult (Except String String) :=
  if 200 ≤ statusCode ∧ statusCode ≤ 204 then
    if 0 < (Body.raw body).length then .ok (.ok (Body.raw body))
    else .ok (.ok "")
  else if 0 < (Body.raw body).length then
    match handleErrStatusCode statusCode body with
    | .ok msg => .ok (.error msg)
    | .crash m => .crash m
  else
    .ok (.error ("Received unexpected response: " ++ toString statusCode ++ " " ++ statusText))

/-- Embeds `delete` (string version) from `apiServiceUtils.go`: read
band `[200,300)`; out of band the error mapper runs unconditionally,
even on an empty body. -/
def deleteOp (statusCode : Nat) (body : Body) : GoResult (Except String String) :=
  if 200 ≤ statusCode ∧ statusCode < 300 then
    if 0 < (Body.raw body).length then .ok (.ok (Body.raw body))
    else .ok (.ok "")
  else
    match handleErrStatusCode statusCode body with
    | .ok msg => .ok (.error msg)
    | .crash m => .crash m

/-- Embeds `putWithEventContext` from `apiServiceUtils.go`. `decodeCtx`
stands for `models.EventContext.FromJSON`. In the `[200,204]` band a
non-empty body is decoded; a decode failure produces an error whose
message is the decode error, a newline, the `-----DETAILS-----` marker
and the raw body. An empty in-band body returns no context (`none`). -/
def putWithEventContextOp (statusCode : Nat) (statusText : String) (body : Body)
    (decodeCtx : String → Except String EventContext) :
    GoResult (Except String (Option EventContext)) :=
  if 200 ≤ statusCode ∧ statusCode ≤ 204 then
    if 0 < (Body.raw body).length then
      match decodeCtx (Body.raw body) with
      | .ok eventContext => .ok (.ok (some eventContext))
      | .error e => .ok (.error (e ++ "\n" ++ "-----DETAILS-----" ++ Body.raw body))
    else .ok (.ok none)
  else if 0 < (Body.raw body).length then
    match handleErrStatusCode statusCode body with
    | .ok msg => .ok (.error msg)
    | .crash m => .crash m
  else
    .ok (.error ("Received unexpected response: " ++ toString statusCode ++ " " ++ statusText))

/-- Embeds `postWithEventContext` from `apiServiceUtils.go`; identical
classification to `putWithEventContextOp`, with the POST method. -/
def postWithEventContextOp (statusCode : Nat) (statusText : String) (body : Body)
    (decodeCtx : String → Except String EventContext) :
    GoResult (Except String (Option EventContext)) :=
  if 200 ≤ statusCode ∧ statusCode ≤ 204 then
    if 0 < (Body.raw body).length then
      match decodeCtx (Body.raw body) with
      | .ok eventContext => .ok (.ok (some eventContext))
      | .error e => .ok (.error (e ++ "\n" ++ "-----DETAILS-----" ++ Body.raw body))
    else .ok (.ok none)
  else if 0 < (Body.raw body).length then
    match handleErrStatusCode statusCode body with
    | .ok msg => .ok (.error msg)
    | .crash m => .crash m
  else
    .ok (.error ("Received unexpected response: " ++ toString statusCode ++ " " ++ statusText))

/-- Embeds `getProject` from `apiServiceUtils.go`. `decodeProject`
stands for `models.Project.FromJSON`. Read band `[200,300)`; an in-band
decode failure is surfaced as `buildErrorResponse(err.Error())`, which
carries only the decode error text; out of band the error mapper runs
unconditionally. -/
def getProjectOp (statusCode : Nat) (body : Body)
    (decodeProject : String → Except String Project) :
    GoResult (Except String (Option Project)) :=
  if 200 ≤ statusCode ∧ statusCode < 300 then
    if 0 < (Body.raw body).length then
      match decodeProject (Body.raw body) with
      | .ok p => .ok (.ok (some p))
      | .error e => .ok (.error e)
    else .ok (.ok none)
  else
    match handleErrStatusCode statusCode body with
    | .ok msg => .ok (.error msg)
    | .crash m => .crash m

/-- Embeds the per-response handling inside the `GetAllProjects` loop of
`apiServiceUtils.go`: only status `200` takes the success branch
(`if resp.StatusCode == 200`); any other status goes through the error
mapper. `decodePage` stands for `models.Projects.FromJSON`. -/
def getAllProjectsStep {α : Type} (statusCode : Nat) (body : Body)
    (decodePage : String → Except String α) : GoResult (Except String α) :=
  if statusCode = 200 then
    match decodePage (Body.raw body) with
    | .ok received => .ok (.ok received)
    | .error e => .ok (.error e)
  else
    match handleErrStatusCode statusCode body with
    | .ok msg => .ok (.error msg)
    | .crash m => .crash m

/-- Embeds `post` from the legacy config-service client (`pkg/utils`,
file `part_001`): any status in `[200,300)` returns `(nil, nil)` without
reading the body; otherwise the body is unmarshalled as `models.Error`
and either the decode error or the (possibly message-free) error object
is returned. The value `some msgField` is the returned error object. -/
def configServicePost (statusCode : Nat) (body : Body) :
    Except String (Option (Option String)) :=
  if 200 ≤ statusCode ∧ statusCode < 300 then .ok none
  else
    match errFromJSON body with
    | .error e => .error e
    | .ok msgField => .ok (some msgField)

/-- Embeds `get` from the legacy config-service client (`pkg/utils`,
file `part_001`): any status in `[200,300)` returns `(nil, nil)` at
once, without reading or decoding the body; only for non-success
statuses is the body read and unmarshalled as `models.Project`,
yielding either the decode error or the decoded project.
`decodeProject` stands for `json.Unmarshal` into `models.Project`. -/
def configServiceGet (statusCode : Nat) (body : Body)
    (decodeProject : String → Except String Project) :
    Except String (Option Project) :=
  if 200 ≤ statusCode ∧ statusCode < 300 then .ok none
  else
    match decodeProject (Body.raw body) with
    | .error e => .error e
    | .ok p => .ok (some p)

/-- Go `http.Header.Set`: replace any existing value for the key, else
add it (MIME key canonicalization is not modelled; the claims only use
keys that are already canonical). -/
def headerSet (headers : List (String × String)) (key value : String) :
    List (String × String) :=
  (key, value) :: headers.filter (fun p => p.1 ≠ key)

/-- Lookup of a header value by key. -/
def headerGet (headers : List (String × String)) (key : String) : Option String :=
  (headers.find? (fun p => p.1 = key)).map (·.2)

/-- Embeds `addAuthHeader` (identical in `apiServiceUtils.go` and the
legacy client): the header is set only when both the header name and
the token are non-empty. -/
def addAuthHeader (headers : List (String × String)) (authHeader authToken : String) :
    List (String × String) :=
  if authHeader ≠ "" ∧ authToken ≠ "" then headerSet headers authHeader authToken
  else headers

/-- Headers of a request built by the executor: a fresh request gets
`Content-Type: application/json`, then `addAuthHeader` runs. -/
def buildRequestHeaders (authHeader authToken : String) : List (String × String) :=
  addAuthHeader (headerSet [] "Content-Type" "application/json") authHeader authToken

/-- Clamp an integer into the 64-bit signed range, as Go `strconv.ParseInt`
does on range errors. -/
def clampInt64 (n : Int) : Int :=
  if n < -(2 ^ 63) then -(2 ^ 63)
  else if 2 ^ 63 - 1 < n then 2 ^ 63 - 1
  else n

/-- Decimal digits folded into a natural number. -/
def parseDigits (ds : List Char) : Nat :=
  ds.foldl (fun a c => a * 10 + (c.toNat - 48)) 0

/-- Whether a string is syntactically an optionally signed decimal
integer, the only inputs on which Go `strconv.Atoi` reports no syntax
error. -/
def isGoIntSyntax (s : String) : Bool :=
  match s.data with
  | [] => false
  | '+' :: ds => !ds.isEmpty && ds.all (·.isDigit)
  | '-' :: ds => !ds.isEmpty && ds.all (·.isDigit)
  | ds => ds.all (·.isDigit)

/-- Go `strconv.Atoi` with its error ignored, as in
`nextPageKeyInt, _ := strconv.Atoi(received.NextPageKey)`: a syntax
error yields `0`; a syntactically valid number is clamped to the signed
64-bit range (the value Go returns alongside a range error). -/
def atoiGo (s : String) : Int :=
  if isGoIntSyntax s then
    match s.data with
    | '+' :: ds => clampInt64 (parseDigits ds)
    | '-' :: ds => clampInt64 (-(parseDigits ds : Int))
    | ds => clampInt64 (parseDigits ds)
  else 0

/-- Modelled from the spec: the page envelope decoded by
`models.Events.FromJSON` (the `models` package is not under the embedded
sources): a list of items plus the `nextPageKey` cursor. Items are
abstracted to naturals. -/
structure EventsEnvelope where
  events : List Nat
  nextPageKey : String
deriving Repr, DecidableEq

/-- Modelled from the spec: the page envelope decoded by
`models.Projects.FromJSON`, as for `EventsEnvelope`. -/
structure ProjectsEnvelope where
  projects : List Nat
  nextPageKey : String
deriving Repr, DecidableEq

/-- Outcome of a pagination run, together with the number of network
requests issued. `diverge` marks fuel exhaustion of the embedding (the
Go loop would still be running). -/
inductive PagResult where
  | ok (items : List Nat) (requests : Nat)
  | err (msg : String) (requests : Nat)
  | crash (msg : String) (requests : Nat)
  | diverge
deriving Repr, DecidableEq

/-- Account for one more issued request in a loop outcome. -/
def PagResult.addRequest : PagResult → PagResult
  | .ok items n => .ok items (n + 1)
  | .err m n => .err m (n + 1)
  | .crash m n => .crash m (n + 1)
  | .diverge => .diverge

/-- Embeds the loop body of `getEventsWithContext` from the v2 event
handler (`part_000`). `fetch` stands for `getAndExpectOK` applied to the
URI built from the cursor (empty cursor means no `nextPageKey` query
parameter); `decodePage` stands for `models.Events.FromJSON`. Items of
each page are appended, the loop stops on the `""`/`"0"` sentinel, and
additionally when `numberOfPages` is positive and the numeric value of
the received cursor reaches it. Structural recursion is on `fuel`. -/
def getEventsLoop (fetch : String → Except String String)
    (decodePage : String → Except String EventsEnvelope)
    (numberOfPages : Int) : Nat → String → List Nat → PagResult
  | 0, _, _ => .diverge
  | fuel + 1, nextPageKey, events =>
    match fetch nextPageKey with
    | .error e => .err e 1
    | .ok body =>
      match decodePage body with
      | .error e => .err e 1
      | .ok received =>
        let events2 := events ++ received.events
        if received.nextPageKey = "" ∨ received.nextPageKey = "0" then
          .ok events2 1
        else if 0 < numberOfPages ∧ numberOfPages ≤ atoiGo received.nextPageKey then
          .ok events2 1
        else
          (getEventsLoop fetch decodePage numberOfPages fuel received.nextPageKey events2).addRequest

/-- Embeds `getEventsWithContext`: run the loop from the empty cursor
with an empty accumulator. -/
def getEventsWithContextOp (fetch : String → Except String String)
    (decodePage : String → Except String EventsEnvelope)
    (numberOfPages : Int) (fuel : Nat) : PagResult :=
  getEventsLoop fetch decodePage numberOfPages fuel "" []

/-- Embeds the loop of `GetAllProjects` from `apiServiceUtils.go`.
`fetch` stands for issuing the GET request and reading the body (it
returns the status code and body, or a transport error); each response
goes through `getAllProjectsStep`; there is no page-count limit. -/
def getAllProjectsLoop (fetch : String → Except String (Nat × Body))
    (decodePage : String → Except String ProjectsEnvelope) :
    Nat → String → List Nat → PagResult
  | 0, _, _ => .diverge
  | fuel + 1, nextPageKey, projects =>
    match fetch nextPageKey with
    | .error e => .err e 1
    | .ok (statusCode, body) =>
      match getAllProjectsStep statusCode body decodePage with
      | .crash m => .crash m 1
      | .ok (.error msg) => .err msg 1
      | .ok (.ok received) =>
        let projects2 := projects ++ received.projects
        if received.nextPageKey = "" ∨ received.nextPageKey = "0" then
          .ok projects2 1
        else
          (getAllProjectsLoop fetch decodePage fuel received.nextPageKey projects2).addRequest

/-- A server serves the page list `pages` starting from cursor `c`:
each page is fetched at its cursor and decodes to the envelope, each
non-final page carries a non-sentinel cursor naming the next page, and
the final page carries the `""` or `"0"` sentinel. This is the premise
of the pagination claim, stated over the abstract transport. -/
inductive ServesPages (fetch : String → Except String String)
    (decodePage : String → Except String EventsEnvelope) :
    String → List EventsEnvelope → Prop
  | last (c b : String) (p : EventsEnvelope) :
      fetch c = .ok b → decodePage b = .ok p →
      (p.nextPageKey = "" ∨ p.nextPageKey = "0") →
      ServesPages fetch decodePage c [p]
  | cons (c b : String) (p : EventsEnvelope) (ps : List EventsEnvelope) :
      fetch c = .ok b → decodePage b = .ok p →
      p.nextPageKey ≠ "" → p.nextPageKey ≠ "0" →
      ServesPages fetch decodePage p.nextPageKey ps →
      ServesPages fetch decodePage c (p :: ps)

/-- Embeds the loop of `GetEventsWithRetryWithContext` from the v2
event handler (`part_000`). `fetchAttempt i` stands for the i-th call of
`GetEventsWithContext` (`.ok` means `errObj == nil`). The result carries
the attempt outcome, the number of fetch invocations and the number of
sleeps (`<-time.After(retrySleepTime)` executions). `delayStr` is
`retrySleepTime.String()`. Recursion is on the remaining attempts. -/
def retryLoop (fetchAttempt : Nat → Except String (List Nat))
    (maxRetries : Nat) (delayStr : String) :
    Nat → Nat → Except String (List Nat) × Nat × Nat
  | _, 0 =>
    (.error ("could not find matching event after " ++ toString maxRetries ++ " x " ++ delayStr),
      0, 0)
  | i, remaining + 1 =>
    match fetchAttempt i with
    | .ok events =>
      if 0 < events.length then (.ok events, 1, 0)
      else
        let r := retryLoop fetchAttempt maxRetries delayStr (i + 1) remaining
        (r.1, r.2.1 + 1, r.2.2 + 1)
    | .error _ =>
      let r := retryLoop fetchAttempt maxRetries delayStr (i + 1) remaining
      (r.1, r.2.1 + 1, r.2.2 + 1)

/-- Embeds `GetEventsWithRetryWithContext`: run up to `maxRetries`
attempts from index 0. -/
def getEventsWithRetryOp (fetchAttempt : Nat → Except String (List Nat))
    (maxRetries : Nat) (delayStr : String) : Except String (List Nat) × Nat × Nat :=
  retryLoop fetchAttempt maxRetries delayStr 0 maxRetries

/-- An attempt outcome the retry loop does not accept: an error, or a
success with zero items (`errObj == nil && len(events) > 0` fails). -/
def unsatisfactory : Except String (List Nat) → Bool
  | .ok events => events.isEmpty
  | .error _ => true

/-- Embeds `SequenceControlParams` from `pkg/api/utils/sequenceUtils.go`. -/
structure SequenceControlParams where
  Project : String
  KeptnContext : String
  Stage : String
  State : String
deriving Repr, DecidableEq

/-- Embeds `SequenceControlParams.Validate`: collect one fragment per
missing required field (`Project`, `KeptnContext`, `State`), join them
with commas, and fail exactly when at least one fragment was collected.
`none` models a nil error. The function is pure: it performs no network
I/O. -/
def SequenceControlParams.Validate (s : SequenceControlParams) : Option String :=
  let errMsg : List String :=
    (if s.Project = "" then ["project parameter not set"] else [])
      ++ (if s.KeptnContext = "" then ["keptn context parameter not set"] else [])
      ++ (if s.State = "" then ["sequence state parameter not set"] else [])
  let errStr := String.intercalate "," errMsg
  if 0 < errMsg.length then
    some ("failed to validate sequence control parameters: " ++ errStr)
  else none

/-- One fragment per missing required field, in source order, following
the wording of the claim; compared against the message built by
`SequenceControlParams.Validate`. -/
def missingFieldFragments (s : SequenceControlParams) : List String :=
  (if s.Project = "" then ["project parameter not set"] else [])
    ++ (if s.KeptnContext = "" then ["keptn context parameter not set"] else [])
    ++ (if s.State = "" then ["sequence state parameter not set"] else [])

/-- Whether an executor outcome is a classified success: a normal
return carrying a non-error value. -/
def isOkOutcome {α : Type} : GoResult (Except String α) → Bool
  | .ok (.ok _) => true
  | _ => false

/-- C1: the claim says the error mapper never panics and returns the
generic status-code error on a body that is valid JSON without a
`message` field. The code disagrees: on body `\x7b\x7d` the successful
unmarshal leaves the `Message` pointer nil and `*respErr.Message`
dereferences it, a runtime panic. The second conjunct shows the
malformed-JSON half of the claim does hold. -/
theorem handleErrStatusCode_nil_message_crash :
    handleErrStatusCode 404 (Body.jsonNoMessage "\x7b\x7d")
        = GoResult.crash "runtime error: invalid memory address or nil pointer dereference"
      ∧ handleErrStatusCode 404 (Body.notJson "not json")
        = GoResult.ok (errWithStatusCode 404) :=
  ⟨rfl, rfl⟩

/-- C7: on a request built by the executor, the auth header is present
with the supplied token exactly when both the header name and the token
are non-empty; with either empty it is absent. The header name is
assumed distinct from `Content-Type`, which the executor always sets. -/
theorem authHeader_iff_credentials (authHeader authToken : String)
    (hne : authHeader ≠ "Content-Type") :
    headerGet (buildRequestHeaders authHeader authToken) authHeader
      = if authHeader ≠ "" ∧ authToken ≠ "" then some authToken else none := by
  by_cases h : authHeader ≠ "" ∧ authToken ≠ ""
  · simp [buildRequestHeaders, addAuthHeader, headerSet, headerGet, h]
  · simp [buildRequestHeaders, addAuthHeader, headerSet, headerGet, h, Ne.symm hne]

/-- Witness for C7 at the concrete pair of a non-empty header name and
an empty token: no auth header is injected. -/
theorem authHeader_iff_credentials_witness :
    headerGet (buildRequestHeaders "x-token" "") "x-token" = none := by
  rw [authHeader_iff_credentials "x-token" "" (by decide)]
  decide

/-- C10: `Validate` returns nil exactly when `Project`, `KeptnContext`
and `State` are all non-empty; the `Stage` field never influences the
result; and a failure message is the fixed prefix followed by one
fragment per missing field joined by commas. The embedded function is
pure, so no network I/O is involved. -/
theorem sequenceControlParams_validate_spec (s : SequenceControlParams) :
    (s.Validate = none ↔ (s.Project ≠ "" ∧ s.KeptnContext ≠ "" ∧ s.State ≠ ""))
    ∧ (∀ st₁ st₂ : String,
        SequenceControlParams.Validate ⟨s.Project, s.KeptnContext, st₁, s.State⟩
          = SequenceControlParams.Validate ⟨s.Project, s.KeptnContext, st₂, s.State⟩)
    ∧ (∀ m, s.Validate = some m →
        m = "failed to validate sequence control parameters: "
            ++ String.intercalate "," (missingFieldFragments s)) := by
  obtain ⟨p, k, stg, st⟩ := s
  by_cases hp : p = "" <;> by_cases hk : k = "" <;> by_cases hs : st = "" <;>
    simp_all [SequenceControlParams.Validate, missingFieldFragments]

/-- Witness for C10 at a concrete parameter set missing only the
project: the produced message is the prefix plus the single fragment. -/
theorem sequenceControlParams_validate_spec_witness :
    "failed to validate sequence control parameters: project parameter not set"
      = "failed to validate sequence control parameters: "
          ++ String.intercalate "," (missingFieldFragments ⟨"", "c", "stg", "ok"⟩) :=
  (sequenceControlParams_validate_spec ⟨"", "c", "stg", "ok"⟩).2.2 _ (by decide)

lemma postOp_ok_iff (c : Nat) (st : String) (body : Body) :
    isOkOutcome (postOp c st body) = true ↔ (200 ≤ c ∧ c ≤ 204) := by
  unfold postOp
  by_cases h : 200 ≤ c ∧ c ≤ 204
  · simp only [if_pos h]
    split <;> simp [isOkOutcome, h]
  · simp only [if_neg h]
    split
    · cases handleErrStatusCode c body <;> simp [isOkOutcome, h]
    · simp [isOkOutcome, h]

lemma putOp_ok_iff (c : Nat) (st : String) (body : Body) :
    isOkOutcome (putOp c st body) = true ↔ (200 ≤ c ∧ c ≤ 204) := by
  unfold putOp
  by_cases h : 200 ≤ c ∧ c ≤ 204
  · simp only [if_pos h]
    split <;> simp [isOkOutcome, h]
  · simp only [if_neg h]
    split
    · cases handleErrStatusCode c body <;> simp [isOkOutcome, h]
    · simp [isOkOutcome, h]

lemma deleteOp_ok_iff (c : Nat) (body : Body) :
    isOkOutcome (deleteOp c body) = true ↔ (200 ≤ c ∧ c < 300) := by
  unfold deleteOp
  by_cases h : 200 ≤ c ∧ c < 300
  · simp only [if_pos h]
    split <;> simp [isOkOutcome, h]
  · simp only [if_neg h]
    cases handleErrStatusCode c body <;> simp [isOkOutcome, h]

lemma putWithEventContextOp_ok_band (c : Nat) (st : String) (body : Body)
    (d : String → Except String EventContext) :
    isOkOutcome (putWithEventContextOp c st body d) = true → 200 ≤ c ∧ c ≤ 204 := by
  unfold putWithEventContextOp
  by_cases h : 200 ≤ c ∧ c ≤ 204
  · exact fun _ => h
  · simp only [if_neg h]
    split
    · cases handleErrStatusCode c body <;> simp [isOkOutcome]
    · simp [isOkOutcome]

lemma postWithEventContextOp_ok_band (c : Nat) (st : String) (body : Body)
    (d : String → Except String EventContext) :
    isOkOutcome (postWithEventContextOp c st body d) = true → 200 ≤ c ∧ c ≤ 204 := by
  unfold postWithEventContextOp
  by_cases h : 200 ≤ c ∧ c ≤ 204
  · exact fun _ => h
  · simp only [if_neg h]
    split
    · cases handleErrStatusCode c body <;> simp [isOkOutcome]
    · simp [isOkOutcome]

lemma getProjectOp_ok_band (c : Nat) (body : Body)
    (d : String → Except String Project) :
    isOkOutcome (getProjectOp c body d) = true → 200 ≤ c ∧ c < 300 := by
  unfold getProjectOp
  by_cases h : 200 ≤ c ∧ c < 300
  · exact fun _ => h
  · simp only [if_neg h]
    cases handleErrStatusCode c body <;> simp [isOkOutcome]

lemma getAllProjectsStep_ok_band (c : Nat) (body : Body)
    (d : String → Except String ProjectsEnvelope) :
    isOkOutcome (getAllProjectsStep c body d) = true → c = 200 := by
  unfold getAllProjectsStep
  by_cases h : c = 200
  · exact fun _ => h
  · simp only [if_neg h]
    cases handleErrStatusCode c body <;> simp [isOkOutcome]

lemma configServicePost_nil_iff (c : Nat) (body : Body) :
    configServicePost c body = .ok none ↔ (200 ≤ c ∧ c < 300) := by
  unfold configServicePost
  by_cases h : 200 ≤ c ∧ c < 300
  · simp [h]
  · simp only [if_neg h]
    cases errFromJSON body <;> simp [h]

/-- C2 (amended): `post`/`put`, with and without event context, classify
success exactly on `[200,204]`; `getProject` and `delete` classify
success exactly on `[200,300)` (for the decode-carrying `getProject`,
reaching the success branch additionally needs the body to decode); the
`GetAllProjects` pagination read treats exactly status 200 as success;
the legacy config-service `post` uses `[200,300)`. Every status outside
the respective band yields a non-success outcome. -/
theorem statusBands (c : Nat) (statusText : String) (body : Body)
    (dEC : String → Except String EventContext)
    (dP : String → Except String Project)
    (dEnv : String → Except String ProjectsEnvelope) :
    (isOkOutcome (postOp c statusText body) = true ↔ (200 ≤ c ∧ c ≤ 204))
    ∧ (isOkOutcome (putOp c statusText body) = true ↔ (200 ≤ c ∧ c ≤ 204))
    ∧ (isOkOutcome (deleteOp c body) = true ↔ (200 ≤ c ∧ c < 300))
    ∧ (isOkOutcome (putWithEventContextOp c statusText body dEC) = true → 200 ≤ c ∧ c ≤ 204)
    ∧ (isOkOutcome (postWithEventContextOp c statusText body dEC) = true → 200 ≤ c ∧ c ≤ 204)
    ∧ (∀ ec, 200 ≤ c ∧ c ≤ 204 → dEC (Body.raw body) = .ok ec → 0 < (Body.raw body).length →
        putWithEventContextOp c statusText body dEC = .ok (.ok (some ec)))
    ∧ (isOkOutcome (getProjectOp c body dP) = true → 200 ≤ c ∧ c < 300)
    ∧ (∀ p, 200 ≤ c ∧ c < 300 → dP (Body.raw body) = .ok p → 0 < (Body.raw body).length →
        getProjectOp c body dP = .ok (.ok (some p)))
    ∧ (isOkOutcome (getAllProjectsStep c body dEnv) = true → c = 200)
    ∧ (∀ env, c = 200 → dEnv (Body.raw body) = .ok env →
        getAllProjectsStep c body dEnv = .ok (.ok env))
    ∧ (configServicePost c body = .ok none ↔ (200 ≤ c ∧ c < 300)) := by
  refine ⟨postOp_ok_iff c statusText body, putOp_ok_iff c statusText body,
    deleteOp_ok_iff c body, putWithEventContextOp_ok_band c statusText body dEC,
    postWithEventContextOp_ok_band c statusText body dEC, ?_,
    getProjectOp_ok_band c body dP, ?_, getAllProjectsStep_ok_band c body dEnv, ?_,
    configServicePost_nil_iff c body⟩
  · intro ec hband hdec hlen
    simp [putWithEventContextOp, hband, hlen, hdec]
  · intro p hband hdec hlen
    simp [getProjectOp, hband, hlen, hdec]
  · intro env h200 hdec
    simp [getAllProjectsStep, h200, hdec]

/-- Counterexample for C2 as stated: `GetAllProjects` is a read
operation, status 204 lies inside the claimed read band `[200,300)`,
yet the response handler classifies it as an error; a one-page run of
the loop aborts with the mapped error after one request. -/
theorem statusBands_counterexample :
    isOkOutcome (getAllProjectsStep 204 (Body.jsonMessage "boom")
        (fun _ => .ok (⟨[], ""⟩ : ProjectsEnvelope))) = false
    ∧ getAllProjectsLoop (fun _ => .ok (204, Body.jsonMessage "boom"))
        (fun _ => .ok (⟨[], ""⟩ : ProjectsEnvelope)) 1 "" [] = .err "boom" 1
    ∧ 200 ≤ 204 ∧ 204 < 300 :=
  ⟨rfl, rfl, by decide, by decide⟩

/-- Witness for C2 (amended) at status 204: a write operation inside
the write band classifies as success. -/
theorem statusBands_witness :
    isOkOutcome (postOp 204 "No Content" (Body.notJson "")) = true :=
  (statusBands 204 "No Content" (Body.notJson "") (fun _ => .error "e")
    (fun _ => .error "e") (fun _ => .error "e")).1.mpr (by decide)

/-- Counterexample for C8 as stated, in its two independent failure
modes. First, `getProject` on a success-band response whose body fails
to decode returns an error carrying only the decode error text: the
raw body `XYZBODY` appears nowhere in the message. Second, the cited
legacy config-service `get` on a success-band response with the same
non-empty body never attempts the decode at all: even with a decoder
that always fails it returns a clean `(nil, nil)`, silently discarding
the body. -/
theorem getProject_decode_error_drops_body :
    (getProjectOp 200 (Body.notJson "XYZBODY") (fun _ => .error "decode failed")
        = GoResult.ok (.error "decode failed")
      ∧ ¬ List.IsInfix "XYZBODY".data "decode failed".data)
    ∧ configServiceGet 200 (Body.notJson "XYZBODY") (fun _ => .error "decode failed")
        = .ok none :=
  ⟨⟨rfl, by decide⟩, rfl⟩

/-- C8 (amended): on a success-band response with a non-empty body, the
event-context write operations and `getProject` attempt the decode and
surface a decode failure: the write operations with an error whose
message embeds both the decode error text and the raw body (joined by
the `-----DETAILS-----` marker), `getProject` with an error carrying
only the decode error text; the legacy config-service `get`, however,
performs no decode at all on a success-band response and returns
`(nil, nil)` regardless of the body, silently discarding it. Where a
decode is attempted, its failure is never dropped. -/
theorem decodeFailureSurfaced (c c₂ c₃ : Nat) (statusText : String) (body : Body)
    (d₁ : String → Except String EventContext) (d₂ d₃ : String → Except String Project)
    (e₁ e₂ : String)
    (h₁ : 200 ≤ c ∧ c ≤ 204) (hne : 0 < (Body.raw body).length)
    (hd₁ : d₁ (Body.raw body) = .error e₁)
    (h₂ : 200 ≤ c₂ ∧ c₂ < 300)
    (hd₂ : d₂ (Body.raw body) = .error e₂)
    (h₃ : 200 ≤ c₃ ∧ c₃ < 300) :
    putWithEventContextOp c statusText body d₁
        = .ok (.error (e₁ ++ "\n" ++ "-----DETAILS-----" ++ Body.raw body))
      ∧ List.IsInfix e₁.data (e₁ ++ "\n" ++ "-----DETAILS-----" ++ Body.raw body).data
      ∧ List.IsInfix (Body.raw body).data
          (e₁ ++ "\n" ++ "-----DETAILS-----" ++ Body.raw body).data
      ∧ getProjectOp c₂ body d₂ = .ok (.error e₂)
      ∧ configServiceGet c₃ body d₃ = .ok none := by
  refine ⟨?_, ?_, ?_, ?_, ?_⟩
  · simp [putWithEventContextOp, h₁, hne, hd₁]
  · exact ⟨[], ("\n" ++ "-----DETAILS-----" ++ Body.raw body).data,
      by simp [String.data_append]⟩
  · exact ⟨(e₁ ++ "\n" ++ "-----DETAILS-----").data, [],
      by simp [String.data_append]⟩
  · simp [getProjectOp, h₂, hne, hd₂]
  · simp [configServiceGet, h₃]

/-- Witness for C8 (amended) at a concrete decode failure: the write
operation embeds both the decode error and the raw body. -/
theorem decodeFailureSurfaced_witness :
    putWithEventContextOp 200 "OK" (Body.notJson "B") (fun _ => .error "E1")
      = GoResult.ok (.error ("E1" ++ "\n" ++ "-----DETAILS-----" ++ "B")) := by
  have h := decodeFailureSurfaced 200 200 200 "OK" (Body.notJson "B")
    (fun _ => .error "E1") (fun _ => .error "E2") (fun _ => .error "E3") "E1" "E2"
    (by decide) (by decide) rfl (by decide) rfl (by decide)
  simpa using h.1

lemma getEventsLoop_serves (fetch : String → Except String String)
    (decodePage : String → Except String EventsEnvelope) :
    ∀ (pages : List EventsEnvelope) (c : String),
      ServesPages fetch decodePage c pages →
      ∀ (fuel : Nat) (acc : List Nat), pages.length ≤ fuel →
        getEventsLoop fetch decodePage 0 fuel c acc
          = .ok (acc ++ (pages.map EventsEnvelope.events).flatten) pages.length := by
  intro pages c h
  induction h with
  | last c b p hf hd hs =>
    intro fuel acc hfuel
    cases fuel with
    | zero => simp at hfuel
    | succ fuel => simp [getEventsLoop, hf, hd, hs]
  | cons c b p ps hf hd hs1 hs2 hrec ih =>
    intro fuel acc hfuel
    cases fuel with
    | zero => simp at hfuel
    | succ fuel =>
      have hsent : ¬(p.nextPageKey = "" ∨ p.nextPageKey = "0") := by tauto
      have hlim : ¬((0 : Int) < 0 ∧ (0 : Int) ≤ atoiGo p.nextPageKey) := by simp
      simp only [getEventsLoop, hf, hd]
      rw [if_neg hsent, if_neg hlim,
        ih fuel (acc ++ p.events) (by simpa using Nat.le_of_succ_le_succ hfuel)]
      simp [PagResult.addRequest]

/-- C3: if the server serves a chain of `N` pages from the empty
cursor, a run of the pagination driver with no page limit and enough
fuel returns the concatenation of all page item lists in arrival order
and issues exactly `N` requests. -/
theorem paginationConcatenatesPages (fetch : String → Except String String)
    (decodePage : String → Except String EventsEnvelope)
    (pages : List EventsEnvelope) (fuel : Nat)
    (h : ServesPages fetch decodePage "" pages) (hfuel : pages.length ≤ fuel) :
    getEventsWithContextOp fetch decodePage 0 fuel
      = .ok ((pages.map EventsEnvelope.events).flatten) pages.length := by
  have := getEventsLoop_serves fetch decodePage pages "" h fuel [] hfuel
  simpa [getEventsWithContextOp] using this

/-- Witness for C3 at a concrete two-page chain: items `[1,2]` then
`[3]` arrive concatenated after exactly two requests. -/
theorem paginationConcatenatesPages_witness :
    getEventsWithContextOp
      (fun c => if c = "" then .ok "b1" else if c = "two" then .ok "b2" else .error "no")
      (fun b => if b = "b1" then .ok (⟨[1, 2], "two"⟩ : EventsEnvelope)
        else if b = "b2" then .ok (⟨[3], "0"⟩ : EventsEnvelope) else .error "bad")
      0 2 = PagResult.ok [1, 2, 3] 2 := by
  have h := paginationConcatenatesPages
    (fun c => if c = "" then .ok "b1" else if c = "two" then .ok "b2" else .error "no")
    (fun b => if b = "b1" then .ok (⟨[1, 2], "two"⟩ : EventsEnvelope)
      else if b = "b2" then .ok (⟨[3], "0"⟩ : EventsEnvelope) else .error "bad")
    [⟨[1, 2], "two"⟩, ⟨[3], "0"⟩] 2
    (ServesPages.cons "" "b1" ⟨[1, 2], "two"⟩ [⟨[3], "0"⟩]
      rfl rfl (by decide) (by decide)
      (ServesPages.last "two" "b2" ⟨[3], "0"⟩ rfl rfl (Or.inr rfl)))
    (by decide)
  exact Eq.trans h (by decide)

/-- C4: with a positive page limit `k`, after fetching a page whose
cursor is not the sentinel, the driver stops at once (one request, no
further fetch) when the numeric value of that cursor reaches `k`; and a
non-numeric cursor is valued `0`, so it never triggers the limit stop
and the loop simply continues with the next page, with no error. -/
theorem paginationPageLimit (fetch : String → Except String String)
    (decodePage : String → Except String EventsEnvelope) (k : Int) (fuel : Nat)
    (c : String) (acc : List Nat) (b : String) (p : EventsEnvelope)
    (hk : 0 < k) (hf : fetch c = .ok b) (hd : decodePage b = .ok p)
    (hs1 : p.nextPageKey ≠ "") (hs2 : p.nextPageKey ≠ "0") :
    (k ≤ atoiGo p.nextPageKey →
      getEventsLoop fetch decodePage k (fuel + 1) c acc = .ok (acc ++ p.events) 1)
    ∧ (isGoIntSyntax p.nextPageKey = false →
      atoiGo p.nextPageKey = 0
      ∧ getEventsLoop fetch decodePage k (fuel + 1) c acc
          = (getEventsLoop fetch decodePage k fuel p.nextPageKey (acc ++ p.events)).addRequest) := by
  have hsent : ¬(p.nextPageKey = "" ∨ p.nextPageKey = "0") := by tauto
  constructor
  · intro hle
    simp only [getEventsLoop, hf, hd]
    rw [if_neg hsent, if_pos ⟨hk, hle⟩]
  · intro hns
    have h0 : atoiGo p.nextPageKey = 0 := by simp [atoiGo, hns]
    refine ⟨h0, ?_⟩
    have hlim : ¬(0 < k ∧ k ≤ atoiGo p.nextPageKey) := by
      rw [h0]; rintro ⟨_, hcon⟩; omega
    simp only [getEventsLoop, hf, hd]
    rw [if_neg hsent, if_neg hlim]

/-- Witness for C4 at limit `k = 1` and a page carrying numeric cursor
`"5"`: the run stops after one request even though the sentinel never
appeared. -/
theorem paginationPageLimit_witness :
    getEventsLoop (fun c => if c = "" then .ok "b0" else .error "no")
      (fun b => if b = "b0" then .ok (⟨[10, 11], "5"⟩ : EventsEnvelope) else .error "bad")
      1 2 "" [] = PagResult.ok [10, 11] 1 := by
  have h := paginationPageLimit
    (fun c => if c = "" then .ok "b0" else .error "no")
    (fun b => if b = "b0" then .ok (⟨[10, 11], "5"⟩ : EventsEnvelope) else .error "bad")
    1 1 "" [] "b0" ⟨[10, 11], "5"⟩
    (by decide) rfl rfl (by decide) (by decide)
  exact Eq.trans (h.1 (by decide)) (by decide)

lemma retryLoop_first_success (f : Nat → Except String (List Nat))
    (maxR : Nat) (d : String) (events : List Nat) :
    ∀ (m i remaining : Nat), m < remaining →
      (∀ j, j < m → unsatisfactory (f (i + j)) = true) →
      f (i + m) = .ok events → events ≠ [] →
      retryLoop f maxR d i remaining = (.ok events, m + 1, m) := by
  intro m
  induction m with
  | zero =>
    intro i remaining hlt hfail hsucc hne
    cases remaining with
    | zero => omega
    | succ r =>
      have hfi : f i = .ok events := by simpa using hsucc
      have hlen : 0 < events.length := List.length_pos.mpr hne
      simp [retryLoop, hfi, hlen]
  | succ n ih =>
    intro i remaining hlt hfail hsucc hne
    cases remaining with
    | zero => omega
    | succ r =>
      have h0 : unsatisfactory (f i) = true := by simpa using hfail 0 (Nat.succ_pos n)
      have hrec : retryLoop f maxR d (i + 1) r = (.ok events, n + 1, n) := by
        refine ih (i + 1) r (by omega) ?_ ?_ hne
        · intro j hj
          rw [show i + 1 + j = i + (j + 1) from by omega]
          exact hfail (j + 1) (by omega)
        · rw [show i + 1 + n = i + (n + 1) from by omega]
          exact hsucc
      cases hfi : f i with
      | ok evs =>
        have hnil : evs = [] := by simpa [unsatisfactory, hfi] using h0
        subst hnil
        simp [retryLoop, hfi, hrec]
      | error e =>
        simp [retryLoop, hfi, hrec]

/-- C5: if the fetch is unsatisfactory (an error or zero items) on each
of the first `m` attempts and succeeds with a non-empty item list on
attempt `m + 1`, with `m` below the attempt budget, the retry driver
returns exactly those items after exactly `m + 1` fetch invocations and
exactly `m` sleeps; in particular an empty successful result is never
returned early. -/
theorem retryReturnsFirstSuccess (f : Nat → Except String (List Nat))
    (maxRetries m : Nat) (d : String) (events : List Nat)
    (hm : m < maxRetries)
    (hfail : ∀ j, j < m → unsatisfactory (f j) = true)
    (hsucc : f m = .ok events) (hne : events ≠ []) :
    getEventsWithRetryOp f maxRetries d = (.ok events, m + 1, m) := by
  have h := retryLoop_first_success f maxRetries d events m 0 maxRetries hm
    (by intro j hj; simpa using hfail j hj) (by simpa using hsucc) hne
  simpa [getEventsWithRetryOp] using h

/-- Witness for C5: two empty attempts, then `[7]` on the third with a
budget of five; the driver returns `[7]` after three invocations and
two sleeps. -/
theorem retryReturnsFirstSuccess_witness :
    getEventsWithRetryOp (fun i => if i < 2 then .ok [] else .ok [7]) 5 "1s"
      = (.ok [7], 3, 2) := by
  have h := retryReturnsFirstSuccess (fun i => if i < 2 then .ok [] else .ok [7])
    5 2 "1s" [7] (by decide) (by decide) rfl (by decide)
  exact h

lemma retryLoop_exhaust (f : Nat → Except String (List Nat))
    (maxR : Nat) (d : String) :
    ∀ (remaining i : Nat), (∀ j, j < remaining → unsatisfactory (f (i + j)) = true) →
      retryLoop f maxR d i remaining
        = (.error ("could not find matching event after " ++ toString maxR ++ " x " ++ d),
            remaining, remaining) := by
  intro remaining
  induction remaining with
  | zero => intro i _; simp [retryLoop]
  | succ r ih =>
    intro i h
    have h0 : unsatisfactory (f i) = true := by simpa using h 0 (Nat.succ_pos r)
    have hrec := ih (i + 1) (fun j hj => by
      rw [show i + 1 + j = i + (j + 1) from by omega]
      exact h (j + 1) (by omega))
    cases hfi : f i with
    | ok evs =>
      have hnil : evs = [] := by simpa [unsatisfactory, hfi] using h0
      subst hnil
      simp [retryLoop, hfi, hrec]
    | error e =>
      simp [retryLoop, hfi, hrec]

/-- C6: if every attempt is unsatisfactory (an error or zero items),
the retry driver performs exactly `maxRetries` fetch invocations and
returns the terminal error naming the attempt count and the delay; no
nil-error result is produced. -/
theorem retryExhaustsBudget (f : Nat → Except String (List Nat))
    (maxRetries : Nat) (d : String)
    (hfail : ∀ j, j < maxRetries → unsatisfactory (f j) = true) :
    getEventsWithRetryOp f maxRetries d
      = (.error ("could not find matching event after " ++ toString maxRetries ++ " x " ++ d),
          maxRetries, maxRetries) := by
  have h := retryLoop_exhaust f maxRetries d maxRetries 0
    (fun j hj => by simpa using hfail j hj)
  simpa [getEventsWithRetryOp] using h

/-- Witness for C6: a fetch that always returns zero items with a
budget of three yields the terminal message after three invocations. -/
theorem retryExhaustsBudget_witness :
    getEventsWithRetryOp (fun _ => .ok []) 3 "2s"
      = (.error "could not find matching event after 3 x 2s", 3, 3) := by
  have h := retryExhaustsBudget (fun _ => .ok []) 3 "2s" (by decide)
  exact h

/-- C9: the claim says a cancelled attempt aborts the retry loop
promptly with a cancellation error. The code disagrees: with the
context cancelled, every in-flight call fails with `context canceled`,
which the loop treats as an ordinary retry signal; it still performs
all `maxRetries` invocations, sleeps the full delay after every one of
them, and returns the retry-exhaustion error instead of a cancellation
error. -/
theorem retryIgnoresCancellation :
    getEventsWithRetryOp (fun _ => .error "context canceled") 2 "1s"
      = (.error "could not find matching event after 2 x 1s", 2, 2) :=
  rfl

end Keptn
